import Mathlib

/-!
Verification of the bootstrap script `setup.py`: a shallow embedding of its
two reusable mechanisms (the GitHub latest-tag resolver and the deferred
configuration holder `Config`), together with the logging-indentation
context manager, the GraphQL error formatting and the interactive prompt
loop, with theorems settling the specification's claims about them.
-/

namespace Setup

/-! ## GitHub tag resolution (`find_latest_github_tag`) -/

/-- `GitTag` from the source: `class GitTag(NamedTuple): name; tarball_url`. -/
structure GitTag where
  name : String
  tarball_url : String
deriving DecidableEq, Repr

/-- A response node of the tag query, as a JSON-like object.  The query
returns nodes carrying an optional `name`, an optional `tarballUrl` and an
optional nested `target` object; presence of the `target` key is modelled by
the `withTarget` constructor so that the source's `while "target" in obj`
test is the constructor test. -/
inductive Node where
  | leaf (name : Option String) (tarballUrl : Option String)
  | withTarget (name : Option String) (tarballUrl : Option String) (target : Node)
deriving DecidableEq, Repr

/-- The `name` field of a node (`obj["name"]`, absent key gives `none`). -/
def Node.nameField : Node → Option String
  | .leaf n _ => n
  | .withTarget n _ _ => n

/-- The `tarballUrl` field of a node (`obj["tarballUrl"]`). -/
def Node.tarballUrlField : Node → Option String
  | .leaf _ u => u
  | .withTarget _ u _ => u

/-- The `target` field of a node, when the key is present. -/
def Node.targetField : Node → Option Node
  | .leaf _ _ => none
  | .withTarget _ _ t => some t

/-- The loop `while "target" in obj: obj = obj["target"]` of
`find_latest_github_tag`: follow `target` indirections until the current
object has no `target` key. -/
def followTarget : Node → Node
  | .withTarget _ _ t => followTarget t
  | .leaf n u => .leaf n u

/-- Failures of `find_latest_github_tag` after a successful query: the
tuple-unpacking `(edge,) = ...` raises unless there is exactly one edge, and
missing keys raise `KeyError`. -/
inductive ResolveError where
  | unpackError
  | keyError (key : String)
deriving DecidableEq, Repr

/-- Embedding of the response-processing part of `find_latest_github_tag`
(src/setup.py lines 883-890), applied to the list of edges found at
`result["data"]["repository"]["refs"]["edges"]`:

    (edge,) = result["data"]["repository"]["refs"]["edges"]
    obj = edge["node"]
    tag = obj["name"]
    while "target" in obj:
        obj = obj["target"]
    url = obj["tarballUrl"]
    return GitTag(name=tag, tarball_url=url)
-/
def find_latest_github_tag (edges : List Node) : Except ResolveError GitTag :=
  match edges with
  | [node] =>
    match node.nameField with
    | none => .error (.keyError "name")
    | some tag =>
      match (followTarget node).tarballUrlField with
      | none => .error (.keyError "tarballUrl")
      | some url => .ok { name := tag, tarball_url := url }
  | _ => .error .unpackError

theorem followTarget_targetField_eq_none (n : Node) :
    (followTarget n).targetField = none := by
  induction n with
  | leaf n u => rfl
  | withTarget n u t ih => simpa [followTarget] using ih

/-- Claim C2: the tag-to-commit resolution in `find_latest_github_tag`
follows exactly as many `target` indirection levels as are present, without
assuming a fixed depth: for a lightweight tag (the node's target is a commit)
it returns that commit's archive URL; for an annotated tag (the node's target
is a tag object whose target is a commit) it returns the commit's archive
URL, not the tag object's; and in general the loop stops exactly when the
current object has no `target` field, whose archive URL is then read. -/
theorem find_latest_github_tag_follows_all_targets
    (nm tagName : String) (tagUrl : Option String) (commitUrl : String) :
    (∀ n : Node, (followTarget n).targetField = none) ∧
    (find_latest_github_tag
        [.withTarget (some nm) none (.leaf none (some commitUrl))] =
      .ok { name := nm, tarball_url := commitUrl }) ∧
    (find_latest_github_tag
        [.withTarget (some nm) none
          (.withTarget (some tagName) tagUrl (.leaf none (some commitUrl)))] =
      .ok { name := nm, tarball_url := commitUrl }) ∧
    (∀ n : Node, ∀ tag url,
      n.nameField = some tag → (followTarget n).tarballUrlField = some url →
      find_latest_github_tag [n] = .ok { name := tag, tarball_url := url }) := by
  refine ⟨followTarget_targetField_eq_none, rfl, rfl, ?_⟩
  intro n tag url hname hurl
  simp [find_latest_github_tag, hname, hurl]

/-- Witness for C2 at a concrete annotated-tag node: the commit's URL is
returned, not the tag object's own. -/
theorem find_latest_github_tag_follows_all_targets_witness :
    find_latest_github_tag
        [.withTarget (some "v1") none
          (.withTarget (some "v1-obj") (some "tagObjUrl")
            (.leaf none (some "commitUrl")))] =
      .ok { name := "v1", tarball_url := "commitUrl" } :=
  ((find_latest_github_tag_follows_all_targets "v1" "v1-obj"
      (some "tagObjUrl") "commitUrl").2.2.2
    (.withTarget (some "v1") none
      (.withTarget (some "v1-obj") (some "tagObjUrl")
        (.leaf none (some "commitUrl")))) "v1" "commitUrl" rfl rfl)

/-! ## GraphQL error formatting and query execution -/

/-- A `locations` entry of a GraphQL error payload. -/
structure GraphQLLocation where
  line : Nat
  column : Nat
deriving DecidableEq, Repr

/-- An entry of a GraphQL response's `errors` array. -/
structure GraphQLError where
  message : String
  locations : List GraphQLLocation
deriving DecidableEq, Repr

/-- Python's `sep.join(strings)`: interleave `sep` between the strings. -/
def joinWith (sep : String) : List String → String
  | [] => ""
  | [s] => s
  | s :: rest => s ++ sep ++ joinWith sep rest

/-- The `f'(line {p["line"]}, column {p["column"]})'` fragment of
`graphql_errors_to_string`. -/
def locationString (p : GraphQLLocation) : String :=
  "(line " ++ toString p.line ++ ", column " ++ toString p.column ++ ")"

/-- One entry of the `messages` list built by `graphql_errors_to_string`:
`f'{error["message"]} on {", ".join(locations)}'`. -/
def errorLine (e : GraphQLError) : String :=
  e.message ++ " on " ++ joinWith ", " (e.locations.map locationString)

/-- Embedding of `graphql_errors_to_string` (src/setup.py lines 790-797):
one line per error, lines joined by newlines. -/
def graphql_errors_to_string (errors : List GraphQLError) : String :=
  joinWith "\n" (errors.map errorLine)

/-- The parsed JSON body of a GraphQL response: the top-level `errors` key
may be absent (`none`) or present with an array; its `data` payload is kept
abstract. -/
structure QueryResult (δ : Type) where
  errors : Option (List GraphQLError)
  payload : δ
deriving Repr

/-- Outcome of the HTTP POST in `execute_github_graphql_query`: either a
response body or an `HTTPError` with a status code. -/
inductive HttpOutcome (δ : Type) where
  | response (body : QueryResult δ)
  | httpError (code : Nat)
deriving Repr

/-- Exceptions raised by `execute_github_graphql_query`:
`TokenInvalidError` for a 401, the original `HTTPError` re-raised for other
codes, and the `ValueError` carrying `graphql_errors_to_string` when the
body has an `errors` key. -/
inductive GqlFailure where
  | tokenInvalid (token : String)
  | httpError (code : Nat)
  | queryError (message : String)
deriving DecidableEq, Repr

/-- Embedding of `execute_github_graphql_query` (src/setup.py lines
800-821) from the point where the HTTP layer has produced an outcome:
a 401 becomes `TokenInvalidError`, any other `HTTPError` is re-raised
as-is, a body with an `errors` key raises `ValueError` with the formatted
message, and otherwise the parsed body is returned. -/
def execute_github_graphql_query (token : String) (outcome : HttpOutcome δ) :
    Except GqlFailure (QueryResult δ) :=
  match outcome with
  | .httpError code =>
    if code = 401 then .error (.tokenInvalid token) else .error (.httpError code)
  | .response body =>
    match body.errors with
    | some errs => .error (.queryError (graphql_errors_to_string errs))
    | none => .ok body

/-- `a` occurs as a contiguous substring of `b`. -/
def substrOf (a b : String) : Prop :=
  a.toList <:+: b.toList

instance (a b : String) : Decidable (substrOf a b) :=
  inferInstanceAs (Decidable (a.toList <:+: b.toList))

theorem substrOf_append_left (a b : String) : substrOf a (a ++ b) := by
  show a.toList <:+: (a ++ b).toList
  rw [show (a ++ b).toList = a.toList ++ b.toList from String.data_append a b]
  exact (List.prefix_append a.toList b.toList).isInfix

theorem substrOf_trans_append_right {a c : String} (b : String)
    (h : substrOf a c) : substrOf a (b ++ c) := by
  show a.toList <:+: (b ++ c).toList
  rw [show (b ++ c).toList = b.toList ++ c.toList from String.data_append b c]
  exact h.trans (List.suffix_append b.toList c.toList).isInfix

theorem substrOf_mem_joinWith (sep : String) :
    ∀ (l : List String), ∀ x ∈ l, substrOf x (joinWith sep l) := by
  intro l
  induction l with
  | nil => intro x hx; cases hx
  | cons s rest ih =>
    intro x hx
    cases rest with
    | nil =>
      rcases List.mem_singleton.mp hx with rfl
      show x.toList <:+: (joinWith sep [x]).toList
      exact List.infix_rfl
    | cons t ts =>
      rcases List.mem_cons.mp hx with rfl | hmem
      · show substrOf x (x ++ sep ++ joinWith sep (t :: ts))
        rw [String.append_assoc]
        exact substrOf_append_left x (sep ++ joinWith sep (t :: ts))
      · show substrOf x (s ++ sep ++ joinWith sep (t :: ts))
        rw [String.append_assoc]
        exact substrOf_trans_append_right s
          (substrOf_trans_append_right sep (ih x hmem))

/-- Claim C5: the GraphQL request raises `TokenInvalidError` exactly when
the HTTP status code is 401; every other HTTP error code is propagated
as-is, and a body-carrying response never produces this error kind. -/
theorem execute_github_graphql_query_auth_iff_401 (δ : Type)
    (token : String) (code : Nat) (body : QueryResult δ) :
    ((∃ t, execute_github_graphql_query token
        (HttpOutcome.httpError code : HttpOutcome δ) = .error (.tokenInvalid t))
      ↔ code = 401) ∧
    (code ≠ 401 → execute_github_graphql_query token
        (HttpOutcome.httpError code : HttpOutcome δ) = .error (.httpError code)) ∧
    (∀ t, execute_github_graphql_query token (HttpOutcome.response body) ≠
        .error (.tokenInvalid t)) := by
  refine ⟨⟨?_, ?_⟩, ?_, ?_⟩
  · rintro ⟨t, ht⟩
    by_contra hne
    simp [execute_github_graphql_query, hne] at ht
  · rintro rfl
    exact ⟨token, by simp [execute_github_graphql_query]⟩
  · intro hne
    simp [execute_github_graphql_query, hne]
  · intro t
    cases h : body.errors with
    | none => simp [execute_github_graphql_query, h]
    | some errs => simp [execute_github_graphql_query, h]

/-- Witness for C5: a 401 on a concrete token raises `TokenInvalidError`
and a 403 is propagated as a plain HTTP error. -/
theorem execute_github_graphql_query_auth_iff_401_witness :
    (∃ t, execute_github_graphql_query "tok"
        (HttpOutcome.httpError 401 : HttpOutcome Unit) = .error (.tokenInvalid t)) ∧
    execute_github_graphql_query "tok"
        (HttpOutcome.httpError 403 : HttpOutcome Unit) = .error (.httpError 403) :=
  ⟨(execute_github_graphql_query_auth_iff_401 Unit "tok" 401
      ⟨none, ()⟩).1.mpr rfl,
   (execute_github_graphql_query_auth_iff_401 Unit "tok" 403
      ⟨none, ()⟩).2.1 (by decide)⟩

theorem substrOf_trans {a b c : String} (h1 : substrOf a b) (h2 : substrOf b c) :
    substrOf a c :=
  List.IsInfix.trans h1 h2

theorem substrOf_errorLine_message (e : GraphQLError) :
    substrOf e.message (errorLine e) := by
  show substrOf e.message
    (e.message ++ " on " ++ joinWith ", " (e.locations.map locationString))
  rw [String.append_assoc]
  exact substrOf_append_left _ _

theorem substrOf_errorLine_location (e : GraphQLError) (p : GraphQLLocation)
    (hp : p ∈ e.locations) : substrOf (locationString p) (errorLine e) := by
  show substrOf (locationString p)
    (e.message ++ " on " ++ joinWith ", " (e.locations.map locationString))
  rw [String.append_assoc]
  exact substrOf_trans_append_right e.message
    (substrOf_trans_append_right " on "
      (substrOf_mem_joinWith ", " (e.locations.map locationString)
        (locationString p) (List.mem_map_of_mem locationString hp)))

/-- Claim C6: a response payload with a non-empty `errors` array makes
`execute_github_graphql_query` raise the query error whose message is one
line per error joined by newlines, and that message contains each error's
`message` text together with the `(line X, column Y)` string of each of its
locations. -/
theorem execute_github_graphql_query_errors_message (δ : Type) (token : String)
    (body : QueryResult δ) (errs : List GraphQLError)
    (herrs : body.errors = some errs) (hne : errs ≠ []) :
    ∃ msg, execute_github_graphql_query token (HttpOutcome.response body) =
        .error (.queryError msg) ∧
      msg = joinWith "\n" (errs.map errorLine) ∧
      ∀ e ∈ errs, substrOf e.message msg ∧
        ∀ p ∈ e.locations, substrOf (locationString p) msg := by
  refine ⟨graphql_errors_to_string errs, ?_, rfl, ?_⟩
  · simp [execute_github_graphql_query, herrs]
  · intro e he
    have hline : substrOf (errorLine e) (graphql_errors_to_string errs) :=
      substrOf_mem_joinWith "\n" (errs.map errorLine) (errorLine e)
        (List.mem_map_of_mem errorLine he)
    exact ⟨substrOf_trans (substrOf_errorLine_message e) hline,
      fun p hp => substrOf_trans (substrOf_errorLine_location e p hp) hline⟩

/-- Witness for C6 at a concrete two-error payload with two locations. -/
theorem execute_github_graphql_query_errors_message_witness :
    ∃ msg, execute_github_graphql_query "tok"
        (HttpOutcome.response
          (⟨some [⟨"bad query", [⟨3, 7⟩, ⟨4, 1⟩]⟩, ⟨"no tags", [⟨1, 2⟩]⟩], ()⟩ :
            QueryResult Unit)) =
        .error (.queryError msg) ∧
      msg = joinWith "\n"
        ([⟨"bad query", [⟨3, 7⟩, ⟨4, 1⟩]⟩,
          (⟨"no tags", [⟨1, 2⟩]⟩ : GraphQLError)].map errorLine) ∧
      ∀ e ∈ [⟨"bad query", [⟨3, 7⟩, ⟨4, 1⟩]⟩,
          (⟨"no tags", [⟨1, 2⟩]⟩ : GraphQLError)],
        substrOf e.message msg ∧
          ∀ p ∈ e.locations, substrOf (locationString p) msg :=
  execute_github_graphql_query_errors_message Unit "tok"
    ⟨some [⟨"bad query", [⟨3, 7⟩, ⟨4, 1⟩]⟩, ⟨"no tags", [⟨1, 2⟩]⟩], ()⟩
    [⟨"bad query", [⟨3, 7⟩, ⟨4, 1⟩]⟩, ⟨"no tags", [⟨1, 2⟩]⟩] rfl (by decide)

/-- Claim C9: `execute_github_graphql_query` raises the structured-error
exception exactly when the body has an `errors` key, even when the array is
empty (in which case the message is the empty string); it returns the parsed
body exactly when the `errors` key is absent, regardless of the payload. -/
theorem execute_github_graphql_query_errors_key (δ : Type) (token : String)
    (body : QueryResult δ) :
    ((∃ m, execute_github_graphql_query token (HttpOutcome.response body) =
        .error (.queryError m)) ↔ body.errors.isSome) ∧
    (body.errors = some [] →
      execute_github_graphql_query token (HttpOutcome.response body) =
        .error (.queryError "")) ∧
    (execute_github_graphql_query token (HttpOutcome.response body) = .ok body ↔
      body.errors = none) := by
  refine ⟨⟨?_, ?_⟩, ?_, ?_, ?_⟩
  · rintro ⟨m, hm⟩
    cases h : body.errors with
    | none => simp [execute_github_graphql_query, h] at hm
    | some errs => simp [h]
  · intro h
    rcases Option.isSome_iff_exists.mp h with ⟨errs, herrs⟩
    exact ⟨graphql_errors_to_string errs, by
      simp [execute_github_graphql_query, herrs]⟩
  · intro h
    simp [execute_github_graphql_query, h, graphql_errors_to_string, joinWith]
  · intro h
    cases heq : body.errors with
    | none => rfl
    | some errs => simp [execute_github_graphql_query, heq] at h
  · intro h
    simp [execute_github_graphql_query, h]

/-- Witness for C9: an empty `errors` array raises the query error with an
empty message. -/
theorem execute_github_graphql_query_errors_key_witness :
    execute_github_graphql_query "tok"
      (HttpOutcome.response (⟨some [], ()⟩ : QueryResult Unit)) =
      .error (.queryError "") :=
  (execute_github_graphql_query_errors_key Unit "tok" ⟨some [], ()⟩).2.1 rfl

/-! ## Deferred configuration holder (`Config`, `DeferredValueFactory`)

The Python `Config` stores each attribute either as a plain value or as a
`DeferredValueFactory` wrapping a zero-argument producer.  Producers are
effectful (they prompt the user, probe the system, or raise); their effects
are made explicit as a state type `σ` threaded through each invocation, so a
producer is `σ → Except ε α × σ`: it always reports its post-state, and
either a value or a raised exception. -/

/-- An attribute slot of a `Config`: either an already-concrete value or a
`DeferredValueFactory` holding the producer `func`. -/
inductive Attr (σ ε α : Type) where
  | value (v : α)
  | deferredFactory (func : σ → Except ε α × σ)

/-- The `Config` object: its attribute dictionary, keyed by name. -/
structure Config (σ ε α : Type) where
  attrs : List (String × Attr σ ε α)

/-- `object.__getattribute__(self, item)` on the attribute dictionary:
first binding wins, absent key is an `AttributeError`. -/
def lookupAttr (attrs : List (String × Attr σ ε α)) (item : String) :
    Option (Attr σ ε α) :=
  match attrs with
  | [] => none
  | (k, a) :: rest => if k = item then some a else lookupAttr rest item

/-- `setattr(self, item, value)`: overwrite the binding for `item`, or
append it when absent. -/
def setAttr (attrs : List (String × Attr σ ε α)) (item : String)
    (a : Attr σ ε α) : List (String × Attr σ ε α) :=
  match attrs with
  | [] => [(item, a)]
  | (k, b) :: rest =>
    if k = item then (item, a) :: rest else (k, b) :: setAttr rest item a

/-- Errors escaping `Config.__getattribute__`: the `AttributeError` of an
unknown attribute, or an exception raised by the producer. -/
inductive AttrFailure (ε : Type) where
  | attributeError
  | producerError (e : ε)

/-- Embedding of `Config.__getattribute__` (src/setup.py lines 1146-1151):

    value = object.__getattribute__(self, item)
    if isinstance(value, DeferredValueFactory):
        value = value()
        setattr(self, item, value)
    return value

The producer runs before `setattr`, so when it raises, the `setattr` is not
executed and the attribute keeps its `DeferredValueFactory`; the returned
configuration and effect state are those left behind at the point the call
ends. -/
def getattribute (cfg : Config σ ε α) (item : String) (s : σ) :
    Except (AttrFailure ε) α × Config σ ε α × σ :=
  match lookupAttr cfg.attrs item with
  | none => (.error .attributeError, cfg, s)
  | some (.value v) => (.ok v, cfg, s)
  | some (.deferredFactory func) =>
    match func s with
    | (.ok v, s') => (.ok v, ⟨setAttr cfg.attrs item (.value v)⟩, s')
    | (.error e, s') => (.error (.producerError e), cfg, s')

theorem lookupAttr_setAttr_self (attrs : List (String × Attr σ ε α))
    (item : String) (a : Attr σ ε α) :
    lookupAttr (setAttr attrs item a) item = some a := by
  induction attrs with
  | nil => simp [setAttr, lookupAttr]
  | cons kb rest ih =>
    obtain ⟨k, b⟩ := kb
    by_cases hk : k = item
    · simp [setAttr, lookupAttr, hk]
    · simp [setAttr, lookupAttr, hk, ih]

/-- Claim C3: a deferred field resolves at most once, on first read.  The
first `get` of a pending key invokes the producer exactly once (the effect
state advances to the producer's post-state) and stores the returned value;
the second `get` returns the same value with no further producer invocation
(configuration and effect state are both left untouched), so two
consecutive gets perform exactly one invocation and return equal values. -/
theorem getattribute_memoizes (cfg : Config σ ε α) (item : String) (s s' : σ)
    (func : σ → Except ε α × σ) (v : α)
    (hpend : lookupAttr cfg.attrs item = some (.deferredFactory func))
    (hrun : func s = (.ok v, s')) :
    getattribute cfg item s =
      (.ok v, ⟨setAttr cfg.attrs item (.value v)⟩, s') ∧
    getattribute (⟨setAttr cfg.attrs item (.value v)⟩ : Config σ ε α) item s' =
      (.ok v, ⟨setAttr cfg.attrs item (.value v)⟩, s') := by
  constructor
  · simp [getattribute, hpend, hrun]
  · simp [getattribute, lookupAttr_setAttr_self]

/-- Witness for C3 with an invocation-counting producer: starting from
count 0, two consecutive reads leave the counter at 1 (one invocation, not
two) and both return 42. -/
theorem getattribute_memoizes_witness :
    getattribute (⟨[("b", .deferredFactory (fun n => (.ok 42, n + 1)))]⟩ :
        Config Nat Unit Nat) "b" 0 =
      (.ok 42, ⟨setAttr [("b", .deferredFactory (fun n => (.ok 42, n + 1)))]
        "b" (.value 42)⟩, 1) ∧
    getattribute (⟨setAttr
        [("b", .deferredFactory (fun n => (.ok 42, n + 1)))] "b"
        (.value 42)⟩ : Config Nat Unit Nat) "b" 1 =
      (.ok 42, ⟨setAttr [("b", .deferredFactory (fun n => (.ok 42, n + 1)))]
        "b" (.value 42)⟩, 1) :=
  getattribute_memoizes
    ⟨[("b", .deferredFactory (fun n => (.ok 42, n + 1)))]⟩ "b" 0 1
    (fun n => (.ok 42, n + 1)) 42 rfl rfl

/-- Claim C4: when the producer of a pending field raises on first read,
the exception propagates out of `get`, the configuration is unchanged (the
field is still pending with the same producer), and a subsequent `get`
invokes the producer again — so a later invocation that succeeds resolves
the field normally. -/
theorem getattribute_retries_after_raise (cfg : Config σ ε α) (item : String)
    (s s' s₂ s₃ : σ) (func : σ → Except ε α × σ) (e : ε) (v : α)
    (hpend : lookupAttr cfg.attrs item = some (.deferredFactory func))
    (hfail : func s = (.error e, s'))
    (hretry : func s₂ = (.ok v, s₃)) :
    getattribute cfg item s = (.error (.producerError e), cfg, s') ∧
    getattribute cfg item s₂ =
      (.ok v, ⟨setAttr cfg.attrs item (.value v)⟩, s₃) := by
  constructor
  · simp [getattribute, hpend, hfail]
  · simp [getattribute, hpend, hretry]

/-- Witness for C4: a producer that raises on its first invocation (count
0) and succeeds on its second leaves the field pending after the failure,
and the second read resolves it. -/
theorem getattribute_retries_after_raise_witness :
    getattribute (⟨[("c", .deferredFactory
        (fun n => (if n = 0 then .error () else .ok 7, n + 1)))]⟩ :
        Config Nat Unit Nat) "c" 0 =
      (.error (.producerError ()),
        ⟨[("c", .deferredFactory
          (fun n => (if n = 0 then .error () else .ok 7, n + 1)))]⟩, 1) ∧
    getattribute (⟨[("c", .deferredFactory
        (fun n => (if n = 0 then .error () else .ok 7, n + 1)))]⟩ :
        Config Nat Unit Nat) "c" 1 =
      (.ok 7, ⟨setAttr [("c", .deferredFactory
        (fun n => (if n = 0 then .error () else .ok 7, n + 1)))] "c"
        (.value 7)⟩, 2) :=
  getattribute_retries_after_raise
    ⟨[("c", .deferredFactory
      (fun n => (if n = 0 then .error () else .ok 7, n + 1)))]⟩ "c"
    0 1 1 2 (fun n => (if n = 0 then .error () else .ok 7, n + 1)) () 7
    rfl rfl rfl

/-- Claim C8: reading a key that was never registered — neither as a
concrete value nor as a deferred producer — raises the unknown-field error
(`AttributeError` in the source) and leaves the configuration and the
effect state untouched, rather than returning a value. -/
theorem getattribute_unknown_field (cfg : Config σ ε α) (item : String)
    (s : σ) (hmiss : lookupAttr cfg.attrs item = none) :
    getattribute cfg item s = (.error .attributeError, cfg, s) := by
  simp [getattribute, hmiss]

/-- Witness for C8: a lookup of `"unknown"` in a one-field configuration
raises the unknown-field error. -/
theorem getattribute_unknown_field_witness :
    getattribute (⟨[("a", .value 1)]⟩ : Config Unit Unit Nat) "unknown" () =
      (.error .attributeError, ⟨[("a", .value 1)]⟩, ()) :=
  getattribute_unknown_field ⟨[("a", .value 1)]⟩ "unknown" () rfl

/-! ## Interactive prompt loop (`get_user_input`)

`input()` is modelled by a list of the lines the user will type, consumed
one per loop iteration; the loop's `continue` is recursion on the remaining
lines, and exhausting them (which would block the real program) yields
`none`.  A converter is a function that either returns the converted value
or raises `ValueError`; values are modelled as strings. -/

/-- Embedding of `get_user_input` (src/setup.py lines 1086-1110).  With no
default, an empty line is rejected and the loop continues; with a default,
an empty line selects the default.  A converter, when present, is applied
to the selected value, and a `ValueError` restarts the loop. -/
def get_user_input (default : Option String)
    (converter : Option (String → Except Unit String)) :
    List String → Option String
  | [] => none
  | line :: rest =>
    match default with
    | none =>
      if line = "" then get_user_input none converter rest
      else
        match converter with
        | none => some line
        | some conv =>
          match conv line with
          | .ok v => some v
          | .error _ => get_user_input none converter rest
    | some d =>
      let value := if line = "" then d else line
      match converter with
      | none => some value
      | some conv =>
        match conv value with
        | .ok v => some v
        | .error _ => get_user_input (some d) converter rest

/-- Claim C7: empty input is accepted only when a default is present.  With
default `"sci"` and no converter, an empty line yields `"sci"` and a
non-empty line is returned verbatim; without a default an empty line causes
a re-prompt on the remaining input; with a converter, the converter is
applied to the raw selected string — its result is returned on success and
a validation failure causes a re-prompt instead of propagating. -/
theorem get_user_input_default_and_converter
    (rest : List String) (s d line : String)
    (conv : String → Except Unit String)
    (anyConv : Option (String → Except Unit String)) (v : String) :
    (get_user_input (some "sci") none ("" :: rest) = some "sci") ∧
    (s ≠ "" → get_user_input (some "sci") none (s :: rest) = some s) ∧
    (get_user_input none anyConv ("" :: rest) =
      get_user_input none anyConv rest) ∧
    (conv (if line = "" then d else line) = .ok v →
      get_user_input (some d) (some conv) (line :: rest) = some v) ∧
    (conv (if line = "" then d else line) = .error () →
      get_user_input (some d) (some conv) (line :: rest) =
        get_user_input (some d) (some conv) rest) := by
  refine ⟨?_, ?_, ?_, ?_, ?_⟩
  · simp [get_user_input]
  · intro hs
    simp [get_user_input, hs]
  · simp [get_user_input]
  · intro hok
    simp [get_user_input, hok]
  · intro herr
    simp [get_user_input, herr]

/-- Witness for C7: a non-empty line `"dev"` is returned verbatim, and a
converter rejecting `"bad"` then accepting `"ok"` re-prompts once. -/
theorem get_user_input_default_and_converter_witness :
    (get_user_input (some "sci") none ["dev"] = some "dev") ∧
    (get_user_input (some "sci")
        (some (fun t => if t = "bad" then .error () else .ok t))
        ["bad", "ok"] =
      get_user_input (some "sci")
        (some (fun t => if t = "bad" then .error () else .ok t)) ["ok"]) :=
  ⟨(get_user_input_default_and_converter [] "dev" "sci" "bad"
      (fun t => if t = "bad" then .error () else .ok t) none "x").2.1
      (by decide),
   (get_user_input_default_and_converter ["ok"] "dev" "sci" "bad"
      (fun t => if t = "bad" then .error () else .ok t) none "x").2.2.2.2
      rfl⟩

/-! ## Logging indentation (`context`, `installer`)

The module-level counter `_depth` and the logger's emitted lines form an
explicit state; a logged step is a function from this state to a result
(normal return or raised exception) and a final state. -/

/-- The process-wide logging state: the `_depth` counter and the lines
emitted so far. -/
structure LogState where
  depth : Nat
  lines : List String
deriving DecidableEq, Repr

/-- The indentation produced by `prefix()`: three spaces per depth level. -/
def indentation : Nat → String
  | 0 => ""
  | n + 1 => "   " ++ indentation n

/-- `log(message)`: emit one line prefixed by the current indentation. -/
def log (message : String) (s : LogState) : LogState :=
  { s with lines := s.lines ++ [indentation s.depth ++ message] }

/-- Embedding of the `context()` context manager (src/setup.py lines
60-65):

    _depth += 1
    yield
    _depth -= 1

There is no `try`/`finally`, so when the guarded body raises, the
decrement after `yield` never runs and the exception propagates with the
state the body left behind. -/
def context (body : LogState → Except ε α × LogState) (s : LogState) :
    Except ε α × LogState :=
  match body { s with depth := s.depth + 1 } with
  | (.ok a, s₂) => (.ok a, { s₂ with depth := s₂.depth - 1 })
  | (.error e, s₂) => (.error e, s₂)

/-- The `try`/`except` block inside the `installer` wrapper: run the
wrapped function; on an exception, log the failure line (at the current,
incremented, depth) and re-raise. -/
def installerBody (funcString : String)
    (func : LogState → Except ε α × LogState) (t : LogState) :
    Except ε α × LogState :=
  match func t with
  | (.ok a, t') => (.ok a, t')
  | (.error e, t') =>
    (.error e, log ("Execution of " ++ funcString ++ " failed") t')

/-- Embedding of the `installer` decorator's wrapper (src/setup.py lines
89-109): log the start line, run the wrapped function inside `context()`
(its `try`/`except` is `installerBody`), and log the finish line on normal
completion. -/
def installer (funcString : String)
    (func : LogState → Except ε α × LogState) (s : LogState) :
    Except ε α × LogState :=
  match context (installerBody funcString func)
      (log ("Running " ++ funcString) s) with
  | (.ok a, s₂) => (.ok a, log ("Finished " ++ funcString) s₂)
  | (.error e, s₂) => (.error e, s₂)

theorem log_depth (m : String) (s : LogState) : (log m s).depth = s.depth :=
  rfl

theorem context_depth_eq (body : LogState → Except ε α × LogState)
    (s : LogState)
    (hbody : ((body { s with depth := s.depth + 1 }).2).depth = s.depth + 1) :
    ∀ r s₂, context body s = (r, s₂) →
      s₂.depth = match r with | .ok _ => s.depth | .error _ => s.depth + 1 := by
  intro r s₂ hrun
  unfold context at hrun
  cases hb : body { s with depth := s.depth + 1 } with
  | mk r' t =>
    rw [hb] at hrun hbody
    cases r' with
    | ok a =>
      cases hrun
      have h2 : t.depth = s.depth + 1 := hbody
      simp only []
      omega
    | error e =>
      cases hrun
      exact hbody

theorem installerBody_depth (funcString : String)
    (func : LogState → Except ε α × LogState)
    (hfunc : ∀ t, ((func t).2).depth = t.depth) (t : LogState) :
    ((installerBody funcString func t).2).depth = t.depth := by
  have hft := hfunc t
  unfold installerBody
  cases hf : func t with
  | mk rf tf =>
    rw [hf] at hft
    cases rf with
    | ok a => exact hft
    | error e => exact hft

/-- Claim C10: `context()` restores the depth counter to its entry value
only when the guarded body completes normally; when the body raises, the
decrement after `yield` is skipped and the counter stays one above its
entry value after the exception propagates — in particular for a function
wrapped by the `installer` decorator that fails.  The hypotheses say the
body and the wrapped function leave the depth as they found it. -/
theorem context_depth_leak (ε α : Type)
    (body func : LogState → Except ε α × LogState)
    (s : LogState) (funcString : String)
    (hbody : ((body { s with depth := s.depth + 1 }).2).depth = s.depth + 1)
    (hfunc : ∀ t, ((func t).2).depth = t.depth) :
    (∀ r s₂, context body s = (r, s₂) →
      s₂.depth = match r with | .ok _ => s.depth | .error _ => s.depth + 1) ∧
    (∀ r s₂, installer funcString func s = (r, s₂) →
      s₂.depth = match r with | .ok _ => s.depth | .error _ => s.depth + 1) := by
  refine ⟨context_depth_eq body s hbody, ?_⟩
  intro r s₂ hrun
  unfold installer at hrun
  have hinner := context_depth_eq (installerBody funcString func)
    (log ("Running " ++ funcString) s)
    (installerBody_depth funcString func hfunc _)
  cases hc : context (installerBody funcString func)
      (log ("Running " ++ funcString) s) with
  | mk rc tc =>
    have htc := hinner rc tc hc
    rw [hc] at hrun
    cases rc with
    | ok a =>
      cases hrun
      simpa using htc
    | error e =>
      cases hrun
      exact htc

/-- Witness for C10: a body that raises from depth 0 leaves the counter at
1 both under `context()` directly and under the `installer` wrapper. -/
theorem context_depth_leak_witness :
    ((context (fun t => ((.error () : Except Unit Unit), t))
      { depth := 0, lines := [] }).2).depth = 1 ∧
    ((installer "install_zsh()" (fun t => ((.error () : Except Unit Unit), t))
      { depth := 0, lines := [] }).2).depth = 1 :=
  ⟨(context_depth_leak Unit Unit (fun t => (.error (), t))
      (fun t => (.error (), t)) { depth := 0, lines := [] } "install_zsh()"
      rfl (fun _ => rfl)).1 (.error ()) _ rfl,
   (context_depth_leak Unit Unit (fun t => (.error (), t))
      (fun t => (.error (), t)) { depth := 0, lines := [] } "install_zsh()"
      rfl (fun _ => rfl)).2 (.error ()) _ rfl⟩

/-! ## The ordering requested by the tag query, and the resolved pipeline

`find_latest_github_tag` builds its query from a fixed template
(src/setup.py lines 853-879); the refs connection it requests is
transcribed structurally below.  The hosting service that evaluates the
query is not part of the repository, so it is modelled from the
specification's description of the external interface. -/

/-- The `orderBy.field` values of a refs connection that matter here. -/
inductive RefOrderField where
  | ALPHABETICAL
  | TAG_COMMIT_DATE
deriving DecidableEq, Repr

/-- The `orderBy.direction` values of a refs connection. -/
inductive RefOrderDirection where
  | ASC
  | DESC
deriving DecidableEq, Repr

/-- The arguments of the refs connection in the query template of
`find_latest_github_tag`. -/
structure RefsQuery where
  refPrefixArg : String
  firstArg : Nat
  orderField : RefOrderField
  orderDirection : RefOrderDirection
deriving DecidableEq, Repr

/-- The refs connection the source's query template actually requests:
`refPrefix: "refs/tags/", first: 1, orderBy: {field: ALPHABETICAL,
direction: DESC}` (src/setup.py line 856). -/
def tagRefsQuery : RefsQuery :=
  { refPrefixArg := "refs/tags/", firstArg := 1,
    orderField := .ALPHABETICAL, orderDirection := .DESC }

/-- A tag reference of a repository as known to the hosting service: its
name, the creation/commit date of what it points to, and the pointed-to
commit's archive URL. -/
structure RepoTag where
  name : String
  created : Nat
  tarballUrl : String
deriving DecidableEq, Repr

/-- The greatest tag by name, the service's `ALPHABETICAL` + `DESC` +
`first: 1` selection. -/
def maxByName : List RepoTag → Option RepoTag
  | [] => none
  | t :: ts =>
    some (ts.foldl
      (fun acc u => if acc.name.data < u.name.data then u else acc) t)

/-- The greatest tag by creation/commit date, the selection the claim
describes (`TAG_COMMIT_DATE` + `DESC` + `first: 1`). -/
def maxByCreated : List RepoTag → Option RepoTag
  | [] => none
  | t :: ts =>
    some (ts.foldl (fun acc u => if acc.created < u.created then u else acc) t)

/-- Modelled from the spec: the hosting service's evaluation of the refs
connection, which is absent from src/ (it is the remote side of the
GraphQL external interface of §6).  With direction `DESC` and `first: 1`,
the service yields the greatest tag under the requested order field. -/
def firstTagDesc (tags : List RepoTag) : RefOrderField → Option RepoTag
  | .ALPHABETICAL => maxByName tags
  | .TAG_COMMIT_DATE => maxByCreated tags

/-- Modelled from the spec: the `edges` array the service returns — one
node per selected tag, carrying the tag's `name` and a commit `target`
with the commit's `tarballUrl`, and no edge when the repository has no
tags. -/
def serviceEdges (tags : List RepoTag) (q : RefsQuery) : List Node :=
  match firstTagDesc tags q.orderField with
  | none => []
  | some t => [.withTarget (some t.name) none (.leaf none (some t.tarballUrl))]

/-- `find_latest_github_tag` composed with the modelled service: the
resolved latest tag of a repository whose tag references are `tags`. -/
def resolve_latest_tag (tags : List RepoTag) : Except ResolveError GitTag :=
  find_latest_github_tag (serviceEdges tags tagRefsQuery)

theorem maxByName_spec (ts : List RepoTag) :
    ∀ t : RepoTag, ∃ m, maxByName (t :: ts) = some m ∧ m ∈ t :: ts ∧
      ∀ u ∈ t :: ts, u.name ≤ m.name := by
  induction ts with
  | nil =>
    intro t
    exact ⟨t, rfl, List.mem_singleton_self t, by
      intro u hu
      rcases List.mem_singleton.mp hu with rfl
      exact le_refl u.name⟩
  | cons v ts ih =>
    intro t
    obtain ⟨m, hm, hmem, hle⟩ := ih (if t.name.data < v.name.data then v else t)
    have hheadle : (if t.name.data < v.name.data then v else t).name ≤ m.name :=
      hle _ (List.mem_cons_self _ _)
    have hv : v.name ≤ m.name := by
      by_cases hlt : t.name.data < v.name.data
      · rw [if_pos hlt] at hheadle
        exact hheadle
      · rw [if_neg hlt] at hheadle
        exact le_trans (String.le_iff_toList_le.mpr (le_of_not_lt hlt)) hheadle
    have ht : t.name ≤ m.name := by
      by_cases hlt : t.name.data < v.name.data
      · rw [if_pos hlt] at hheadle
        exact le_trans (le_of_lt (String.lt_iff_toList_lt.mpr hlt)) hheadle
      · rw [if_neg hlt] at hheadle
        exact hheadle
    refine ⟨m, ?_, ?_, ?_⟩
    · simpa [maxByName] using hm
    · rcases List.mem_cons.mp hmem with h | hmem'
      · rw [h]
        by_cases hlt : t.name.data < v.name.data
        · rw [if_pos hlt]
          exact List.mem_cons_of_mem t (List.mem_cons_self v ts)
        · rw [if_neg hlt]
          exact List.mem_cons_self t _
      · exact List.mem_cons_of_mem t (List.mem_cons_of_mem v hmem')
    · intro u hu
      rcases List.mem_cons.mp hu with rfl | hu'
      · exact ht
      · rcases List.mem_cons.mp hu' with rfl | hu''
        · exact hv
        · exact hle u (List.mem_cons_of_mem _ hu'')

/-- Claim C1 (amended): the query orders tag references alphabetically
descending, not by creation/commit date; so for every repository with at
least one tag, the resolver returns a `GitTag` whose `name` is the
alphabetically greatest tag name and whose `tarball_url` is that tag's
archive URL — a non-empty string whenever the service's archive URLs are
non-empty. -/
theorem resolve_latest_tag_alphabetical (t : RepoTag) (ts : List RepoTag)
    (hurls : ∀ u ∈ t :: ts, u.tarballUrl ≠ "") :
    tagRefsQuery.orderField = RefOrderField.ALPHABETICAL ∧
    ∃ m, maxByName (t :: ts) = some m ∧ m ∈ t :: ts ∧
      (∀ u ∈ t :: ts, u.name ≤ m.name) ∧
      resolve_latest_tag (t :: ts) =
        .ok { name := m.name, tarball_url := m.tarballUrl } ∧
      m.tarballUrl ≠ "" := by
  obtain ⟨m, hm, hmem, hle⟩ := maxByName_spec ts t
  refine ⟨rfl, m, hm, hmem, hle, ?_, hurls m hmem⟩
  simp [resolve_latest_tag, serviceEdges, firstTagDesc, tagRefsQuery, hm,
    find_latest_github_tag, Node.nameField, followTarget, Node.tarballUrlField]

/-- Witness for C1 (amended) on a two-tag repository: `"v9"` is the
alphabetically greatest name and its archive URL is returned. -/
theorem resolve_latest_tag_alphabetical_witness :
    resolve_latest_tag
        [{ name := "v10", created := 2, tarballUrl := "u10" },
         { name := "v9", created := 1, tarballUrl := "u9" }] =
      .ok { name := "v9", tarball_url := "u9" } := by
  obtain ⟨-, m, hm, -, -, hres, -⟩ := resolve_latest_tag_alphabetical
    { name := "v10", created := 2, tarballUrl := "u10" }
    [{ name := "v9", created := 1, tarballUrl := "u9" }] (by decide)
  have hm' : m = { name := "v9", created := 1, tarballUrl := "u9" } := by
    have : maxByName
        [{ name := "v10", created := 2, tarballUrl := "u10" },
         { name := "v9", created := 1, tarballUrl := "u9" }] =
        some { name := "v9", created := 1, tarballUrl := "u9" } := by decide
    rw [this] at hm
    exact (Option.some_injective _ hm).symm
  rw [hm'] at hres
  exact hres

/-- Counterexample to claim C1 as stated: the query's ordering is
`ALPHABETICAL`, not creation/commit date.  In a repository where the tag
named `"v9"` (created at time 1) alphabetically follows the more recently
created `"v10"` (time 2), the resolver returns `"v9"` while the most
recently created tag reference is `"v10"`. -/
theorem resolve_latest_tag_not_by_date :
    resolve_latest_tag
        [{ name := "v10", created := 2, tarballUrl := "u10" },
         { name := "v9", created := 1, tarballUrl := "u9" }] =
      .ok { name := "v9", tarball_url := "u9" } ∧
    maxByCreated
        [{ name := "v10", created := 2, tarballUrl := "u10" },
         { name := "v9", created := 1, tarballUrl := "u9" }] =
      some { name := "v10", created := 2, tarballUrl := "u10" } ∧
    ("v9" : String) ≠ "v10" ∧
    tagRefsQuery.orderField ≠ RefOrderField.TAG_COMMIT_DATE := by
  refine ⟨?_, ?_, ?_, ?_⟩ <;> first | rfl | decide

end Setup
